import Mathlib

/-!
Verification development for the task-planning and execution-state engine of
an agent backend (`backend/reasoning/meta_reasoning.js`).

The JavaScript source is shallowly embedded below:

* JS `Map` objects become association lists (`List (String × α)`); `mapSet`
  reproduces `Map.prototype.set` (overwrite in place, append new keys at the
  end, preserving insertion order) and `mapGet` reproduces `Map.prototype.get`.
* JS arrays that are shared by reference between the live `approaches` map and
  checkpoint snapshots are modelled with an explicit store: `SMState.heap`
  holds the array contents and both the live map and the snapshots hold
  indices (references) into it, exactly mirroring the aliasing created by the
  shallow `new Map(this.approaches)` copy in `createCheckpoint`.
* `Date.now()` is an ambient input with no bearing on any property considered
  here; it is modelled as the constant 1 (a truthy value, so that the
  JS-truthiness tests `!task.startTime` / `!task.endTime` are faithfully
  rendered as `= none`).
* External collaborators (memory service, intent classifier, tool selector,
  tool runner, content generation) are opaque environment functions
  (`Env` below); a collaborator that throws is an `Except.error` carrying the
  error message string.
-/

/-- Substring test: `matchesAt pat l` is true when `pat` occurs at the front
of `l`. -/
def matchesAt : List Char → List Char → Bool
  | [], _ => true
  | _ :: _, [] => false
  | a :: as, b :: bs => a = b && matchesAt as bs

/-- Embedding of `String.prototype.includes`: `strIncludes s pat` is true when
`pat` occurs as a contiguous substring of `s`. -/
def strIncludes (s pat : String) : Bool :=
  (List.range (s.toList.length + 1)).any (fun i => matchesAt pat.toList (s.toList.drop i))

/-- Embedding of `Map.prototype.get` on an insertion-ordered association
list. -/
def mapGet (m : List (String × α)) (k : String) : Option α :=
  (m.find? (fun p => p.fst = k)).map (fun p => p.snd)

/-- Embedding of `Map.prototype.has`. -/
def mapHas (m : List (String × α)) (k : String) : Bool :=
  m.any (fun p => p.fst = k)

/-- Embedding of `Map.prototype.set`: overwrites the value of an existing key
in place, otherwise appends the new entry, preserving insertion order. -/
def mapSet (m : List (String × α)) (k : String) (v : α) : List (String × α) :=
  if mapHas m k then m.map (fun p => if p.fst = k then (k, v) else p)
  else m ++ [(k, v)]

/-- Stable insertion of one element behind all elements with a key less than
or equal to its own (helper for `jsSortBy`). -/
def insSorted (key : α → Int) (acc : List α) (x : α) : List α :=
  match acc with
  | [] => [x]
  | y :: ys => if key y ≤ key x then y :: insSorted key ys x else x :: y :: ys

/-- Embedding of `Array.prototype.sort` with a comparator of the shape
`(a, b) => key a - key b`.  ECMAScript sorting is stable, which this stable
insertion sort reproduces: elements with equal keys keep their original
relative order. -/
def jsSortBy (key : α → Int) (l : List α) : List α :=
  l.foldl (insSorted key) []

/-- Embedding of `Array.prototype.indexOf` followed by the
`i >= 0 ? i : l.length` normalisation used by the canonical type re-sort: the
index of the first occurrence, or the list length when absent. -/
def jsIndexOf (l : List String) (x : String) : Nat :=
  ((l.enum.find? (fun p => p.snd = x)).map (fun p => p.fst)).getD l.length

/-- The last `k` elements of a list, in order. -/
def lastN (k : Nat) (l : List α) : List α :=
  l.drop (l.length - k)

/-- ASCII lowering of one character (the only characters the engine ever
lowercases are ASCII). -/
def charLowerAux (c : Char) : Char :=
  if 65 ≤ c.toNat ∧ c.toNat ≤ 90 then Char.ofNat (c.toNat + 32) else c

/-- Embedding of `String.prototype.toLowerCase` on ASCII data. -/
def jsToLower (s : String) : String := String.mk (s.toList.map charLowerAux)

/- ----------------------------------------------------------------- -/
/- Task model and ReasoningStateManager                               -/
/- ----------------------------------------------------------------- -/

/-- The five `TASK_STATES` string constants. -/
inductive TState where
  | pending
  | in_progress
  | completed
  | failed
  | skipped
deriving DecidableEq, Repr

/-- One plan step as produced by the plan builder.  Fields that a concrete JS
step object may simply lack (`id`, `input`, `dependencies`, ...) are
`Option`-valued, `none` standing for `undefined`. -/
structure Step where
  id : Option String := none
  type : String
  description : String := ""
  input : Option String := none
  output : Option String := none
  dependencies : Option (List String) := none
  priority : Option Int := none
  optional : Bool := false
deriving DecidableEq, Repr

/-- The task record stored in `ReasoningStateManager.tasks` by
`initializePlan` (`{...step, id, state, startTime, endTime}`), possibly
extended by `updateTaskState` with `lastUpdated`. -/
structure TaskRec where
  id : String
  type : String
  description : String
  input : Option String
  output : Option String
  dependencies : Option (List String)
  priority : Option Int
  optional : Bool
  state : TState
  startTime : Option Nat
  endTime : Option Nat
  lastUpdated : Option Nat
deriving DecidableEq, Repr

/-- A value held in the manager's `tasks` map.  In a healthy run every value
is a full task object (`obj`), but `restoreCheckpoint` copies the
checkpoint's *state-string* map into `this.tasks`, after which the map holds
bare state strings (`str`).  Reading `.state` off such a string yields JS
`undefined`, rendered `undef`. -/
inductive TaskVal where
  | obj (t : TaskRec)
  | str (s : TState)
  | undef
deriving DecidableEq, Repr

/-- JS property access `task.state` as performed by `createCheckpoint`: on a
task object it yields the state string, on a bare state string it yields
`undefined`.  (On `undefined` the source would throw a TypeError; that point
is unreachable in every run considered below and is rendered `undef`.) -/
def stateOf : TaskVal → TaskVal
  | TaskVal.obj t => TaskVal.str t.state
  | TaskVal.str _ => TaskVal.undef
  | TaskVal.undef => TaskVal.undef

/-- The `.type` of a `tasks`-map value, as read by
`suggestAlternativeApproach` (`undefined` on a bare state string). -/
def typeOfVal : TaskVal → Option String
  | TaskVal.obj t => some t.type
  | _ => none

/-- One entry of a task's failure history, as pushed by `recordFailure`. -/
structure FailureRec where
  approach : String
  error : String
  timestamp : Nat
deriving DecidableEq, Repr

/-- Result payload of one step execution.  Only the fields the engine itself
inspects are modelled; the rest of a JS result object never influences
control flow. -/
structure ToolResult where
  results : Option (List String) := none
  content : Option String := none
  url : Option String := none
  conclusion : Option String := none
deriving DecidableEq, Repr

/-- A step result object (`{success, error?, response?, toolResult?,
selectedTool?}`). -/
structure StepResult where
  success : Bool
  error : Option String := none
  response : Option String := none
  toolResult : Option ToolResult := none
  selectedTool : Option String := none
deriving DecidableEq, Repr

/-- A checkpoint as pushed by `createCheckpoint`: the name, the timestamp,
a fresh map of task states (`[...this.tasks].map(([id, task]) => [id,
task.state])`), a shallow copy of the results map, and a shallow copy of the
approaches map — the last one copying only the *references* to the failure
history arrays. -/
structure Checkpoint where
  name : String
  timestamp : Nat
  taskStates : List (String × TaskVal)
  resultsSnapshot : List (String × StepResult)
  approachesSnapshot : List (String × Nat)
deriving DecidableEq, Repr

/-- The `ReasoningStateManager` state.  `approaches` maps a task id to a
reference (index) into `heap`, which stores the contents of the JS failure
history arrays; checkpoints copy the references, not the contents. -/
structure SMState where
  tasks : List (String × TaskVal)
  results : List (String × StepResult)
  approaches : List (String × Nat)
  heap : List (List FailureRec)
  checkpoints : List Checkpoint
deriving DecidableEq, Repr

/-- A fresh manager (`new ReasoningStateManager()`). -/
def emptySM : SMState :=
  { tasks := [], results := [], approaches := [], heap := [], checkpoints := [] }

/-- The failure history of a task as the source reads it
(`this.approaches.get(taskId) || []`), dereferencing the array. -/
def failHistory (s : SMState) (taskId : String) : List FailureRec :=
  match mapGet s.approaches taskId with
  | some r => s.heap.getD r []
  | none => []

/-- The snapshot record `createCheckpoint` builds from the current state. -/
def mkCheckpoint (s : SMState) (name : String) : Checkpoint :=
  { name := name
    timestamp := 1
    taskStates := s.tasks.map (fun p => (p.fst, stateOf p.snd))
    resultsSnapshot := s.results
    approachesSnapshot := s.approaches }

/-- The ring-buffer push: append, then `if (length > 10) shift()`. -/
def trimStep (l : List Checkpoint) : List Checkpoint :=
  if 10 < l.length then l.tail else l

/-- Embedding of `createCheckpoint(name)`. -/
def createCheckpoint (s : SMState) (name : String) : SMState :=
  { s with checkpoints := trimStep (s.checkpoints ++ [mkCheckpoint s name]) }

/-- Embedding of `restoreCheckpoint(name)`: find the first checkpoint with
this name (JS `Array.prototype.find` scans from the front, i.e. oldest
first), replace the three live maps with its snapshots, return whether a
checkpoint was found.  Note that the source copies the checkpoint's
state-string map into `this.tasks`. -/
def restoreCheckpoint (s : SMState) (name : String) : SMState × Bool :=
  match s.checkpoints.find? (fun cp => cp.name = name) with
  | none => (s, false)
  | some cp =>
      ({ s with tasks := cp.taskStates,
                results := cp.resultsSnapshot,
                approaches := cp.approachesSnapshot }, true)

/-- Embedding of `updateTaskState(taskId, newState)`.  On a task object it
rebuilds the record with the new state, setting `startTime` on first entry
into `in_progress` and `endTime` on first entry into a terminal state.  On a
bare state string the source would spread the string's characters into a
plain object; such values arise only after `restoreCheckpoint` and no run
below updates them, so that branch is rendered as storing `undef`. -/
def updateTaskState (s : SMState) (taskId : String) (newState : TState) :
    SMState × Bool :=
  match mapGet s.tasks taskId with
  | none => (s, false)
  | some (TaskVal.obj task) =>
      let u0 : TaskRec := { task with state := newState, lastUpdated := some 1 }
      let u1 : TaskRec :=
        if newState = TState.in_progress ∧ task.startTime = none then
          { u0 with startTime := some 1 }
        else u0
      let u2 : TaskRec :=
        if (newState = TState.completed ∨ newState = TState.failed ∨
            newState = TState.skipped) ∧ task.endTime = none then
          { u1 with endTime := some 1 }
        else u1
      ({ s with tasks := mapSet s.tasks taskId (TaskVal.obj u2) }, true)
  | some _ =>
      ({ s with tasks := mapSet s.tasks taskId TaskVal.undef }, true)

/-- Body of `recordSuccess` before its final `createCheckpoint` call. -/
def recordSuccessBody (s : SMState) (taskId : String) (result : StepResult) :
    SMState :=
  let s1 := (updateTaskState s taskId TState.completed).fst
  { s1 with results := mapSet s1.results taskId result }

/-- Embedding of `recordSuccess(taskId, result)`. -/
def recordSuccess (s : SMState) (taskId : String) (result : StepResult) :
    SMState :=
  createCheckpoint (recordSuccessBody s taskId result)
    ("task_" ++ taskId ++ "_completed")

/-- Body of `recordFailure` before its final `createCheckpoint` call: mark
the task failed, allocate an empty history array if the task has none, then
push the new entry onto the (shared) array. -/
def recordFailureBody (s : SMState) (taskId approach err : String) : SMState :=
  let s1 := (updateTaskState s taskId TState.failed).fst
  let s2 :=
    if mapHas s1.approaches taskId then s1
    else { s1 with approaches := mapSet s1.approaches taskId s1.heap.length,
                   heap := s1.heap ++ [[]] }
  let r := (mapGet s2.approaches taskId).getD 0
  let cell := (s2.heap.getD r []) ++ [{ approach := approach, error := err, timestamp := 1 }]
  { s2 with heap := s2.heap.set r cell }

/-- Embedding of `recordFailure(taskId, approach, error)`. -/
def recordFailure (s : SMState) (taskId approach err : String) : SMState :=
  createCheckpoint (recordFailureBody s taskId approach err)
    ("task_" ++ taskId ++ "_failed")

/-- The task record `initializePlan` stores for one step
(`{...step, id: taskId, state: PENDING, startTime: null, endTime: null}`). -/
def mkTaskRec (step : Step) (idx : Nat) : TaskRec :=
  { id := step.id.getD ("task-" ++ toString idx)
    type := step.type
    description := step.description
    input := step.input
    output := step.output
    dependencies := step.dependencies
    priority := step.priority
    optional := step.optional
    state := TState.pending
    startTime := none
    endTime := none
    lastUpdated := none }

/-- Body of `initializePlan` before its final `createCheckpoint` call: set
every step of the plan into the (existing, not fresh) `tasks` map at state
`pending`. -/
def initializePlanBody (s : SMState) (steps : List Step) : SMState :=
  let newTasks := steps.enum.foldl
    (fun m p => mapSet m ((p.snd.id).getD ("task-" ++ toString p.fst))
      (TaskVal.obj (mkTaskRec p.snd p.fst))) s.tasks
  { s with tasks := newTasks }

/-- Embedding of `initializePlan(plan)` (the state-manager part; the `plan`
argument only contributes its `steps`). -/
def initializePlan (s : SMState) (steps : List Step) : SMState :=
  createCheckpoint (initializePlanBody s steps) "plan_initialized"

/-- The per-state counters returned by `getTaskStatus()`. -/
structure TaskStatus where
  pending : Nat
  inProgress : Nat
  completed : Nat
  failed : Nat
  skipped : Nat
  total : Nat
deriving DecidableEq, Repr

/-- Embedding of `getTaskStatus()`: counts per state over all tasks; a value
whose `.state` is not one of the five state strings (e.g. a bare state
string left by `restoreCheckpoint`) increments no counter. -/
def getTaskStatus (s : SMState) : TaskStatus :=
  s.tasks.foldl
    (fun st p =>
      match p.snd with
      | TaskVal.obj t =>
          match t.state with
          | TState.pending => { st with pending := st.pending + 1 }
          | TState.in_progress => { st with inProgress := st.inProgress + 1 }
          | TState.completed => { st with completed := st.completed + 1 }
          | TState.failed => { st with failed := st.failed + 1 }
          | TState.skipped => { st with skipped := st.skipped + 1 }
      | _ => st)
    { pending := 0, inProgress := 0, completed := 0, failed := 0, skipped := 0,
      total := s.tasks.length }

example : strIncludes "Invalid URL given" "Invalid URL" = true := by decide
example : strIncludes "boom" "undefined" = false := by decide
example : mapGet (mapSet (mapSet [] "a" 1) "a" 2) "a" = some 2 := by decide
example : jsSortBy (fun x => x) [3, 1, 2, 1] = [1, 1, 2, 3] := by decide

/- ----------------------------------------------------------------- -/
/- Alternative-Approach Advisor                                       -/
/- ----------------------------------------------------------------- -/

/-- A suggestion object returned by the Advisor. -/
structure Suggestion where
  approach : String
  confidence : ℚ
  responseType : Option String := none
  previousApproaches : List String := []
deriving DecidableEq, Repr

/-- The fixed tool priority list of `suggestAlternativeInfoGathering`. -/
def toolPriorities : List (String × ℚ) :=
  [("WEB_SEARCH", 0.9), ("READ_URL", 0.8), ("MEMORY_CHECK", 0.7),
   ("REASONING_TOOL", 0.6)]

/-- Embedding of `suggestAlternativeInfoGathering(triedApproaches, context)`:
walk the fixed priority list and return the first tool not yet tried
(`List.find?` renders the early-returning `for` loop); if all four were
tried, suggest `DIRECT_SYNTHESIS` once; otherwise ask for clarification. -/
def suggestAlternativeInfoGathering (tried : List String) : Suggestion :=
  match toolPriorities.find? (fun tp => ¬ tried.contains tp.fst) with
  | some tp =>
      { approach := tp.fst, confidence := tp.snd, previousApproaches := tried }
  | none =>
      if ¬ tried.contains "DIRECT_SYNTHESIS" then
        { approach := "DIRECT_SYNTHESIS", confidence := 0.7
          previousApproaches := tried }
      else
        { approach := "ASK_CLARIFICATION", confidence := 0.5
          previousApproaches := tried }

/-- Embedding of `suggestAlternativeTool(triedApproaches, context)`; the only
part of the context it reads is `context?.userMsg || ''`. -/
def suggestAlternativeTool (tried : List String) (userMsg : String) :
    Suggestion :=
  let query := userMsg
  if strIncludes (jsToLower query) "github" ∧ ¬ tried.contains "READ_URL" then
    { approach := "READ_URL", confidence := 0.8, previousApproaches := tried }
  else if ¬ tried.contains "REASONING_TOOL" ∧ tried.contains "WEB_SEARCH" then
    { approach := "REASONING_TOOL", confidence := 0.7
      previousApproaches := tried }
  else
    { approach := "ASK_CLARIFICATION", confidence := 0.5
      previousApproaches := tried }

/-- Embedding of `suggestAlternativeApproach(taskId, context)`.  Returns
`none` (JS `null`) when the task id is unknown.  Note the control flow of the
source: the empty-history check, then the `length >= 3` escalation, then the
two error-signature checks (where a parameter-related error that does not
mention `problem` falls through to the type dispatch), then the task-type
dispatch, then the clarification default. -/
def suggestAlternativeApproach (s : SMState) (taskId : String)
    (userMsg : String) : Option Suggestion :=
  match mapGet s.tasks taskId with
  | none => none
  | some tv =>
      let failedApproaches := failHistory s taskId
      if failedApproaches.length = 0 then
        some { approach := "default", confidence := 1.0 }
      else
        let tried := failedApproaches.map (fun a => a.approach)
        if tried.length ≥ 3 then
          some { approach := "DIRECT_RESPONSE", confidence := 0.6
                 responseType := some "summary", previousApproaches := tried }
        else
          let errorPatterns := failedApproaches.map (fun a => a.error)
          if errorPatterns.any
              (fun e => strIncludes e "Invalid URL" || strIncludes e "undefined") then
            some { approach := "SINGLE_URL_PROCESSING", confidence := 0.8
                   previousApproaches := tried }
          else if (errorPatterns.any (fun e =>
                     strIncludes e "Missing required parameter" ||
                     strIncludes e "parameter")) ∧
                  errorPatterns.any (fun e => strIncludes e "problem") then
            some { approach := "WEB_SEARCH", confidence := 0.7
                   previousApproaches := tried }
          else
            let ty := typeOfVal tv
            if ty = some "INFORMATION_GATHERING" then
              some (suggestAlternativeInfoGathering tried)
            else if ty = some "SYNTHESIS" then
              if ¬ tried.contains "DIRECT_SYNTHESIS" then
                some { approach := "DIRECT_SYNTHESIS", confidence := 0.8
                       previousApproaches := tried }
              else
                some { approach := "ASK_CLARIFICATION", confidence := 0.5
                       previousApproaches := tried }
            else if ty = some "TOOL_SELECTION" then
              some (suggestAlternativeTool tried userMsg)
            else
              some { approach := "ASK_CLARIFICATION", confidence := 0.5
                     previousApproaches := tried }

/- ----------------------------------------------------------------- -/
/- Dependency Resolver                                                -/
/- ----------------------------------------------------------------- -/

/-- A decomposed task descriptor as produced by the validation step of
`decomposeQuery` (every field present; the defaults are the ones that
validation substitutes for missing fields). -/
structure TaskD where
  id : String
  type : String
  description : String := "Execute task"
  input : String := "Query"
  output : String := "Result"
  dependencies : List String := []
  priority : Int := 3
  optional : Bool := false
deriving DecidableEq, Repr

/-- The fixed `logicalOrder` table of `enforceLogicalDependencies`
(`logicalOrder[task.type] || []`). -/
def logicalOrderOf (t : String) : List String :=
  if t = "MEMORY_CHECK" then []
  else if t = "INTENT_CLASSIFICATION" then []
  else if t = "TOOL_SELECTION" then ["INTENT_CLASSIFICATION", "MEMORY_CHECK"]
  else if t = "INFORMATION_GATHERING" then ["TOOL_SELECTION"]
  else if t = "SYNTHESIS" then ["INFORMATION_GATHERING"]
  else if t = "VERIFICATION" then ["SYNTHESIS"]
  else []

/-- Embedding of `enforceLogicalDependencies(tasks)`: for every required
predecessor type present in the plan that the task does not already depend
on, push a dependency on the most urgent (lowest priority number, ties broken
by original order — JS `sort` is stable) task of that type. -/
def enforceLogicalDependencies (tasks : List TaskD) : List TaskD :=
  let taskMap := tasks.foldl (fun m t => mapSet m t.id t) []
  let tasksByType := fun ty => tasks.filter (fun t => t.type = ty)
  tasks.map (fun task =>
    let requiredDependencyTypes := logicalOrderOf task.type
    let newDependencies := requiredDependencyTypes.foldl
      (fun deps depType =>
        if (tasksByType depType).length = 0 then deps
        else
          let alreadyHasDep := task.dependencies.any (fun depId =>
            match mapGet taskMap depId with
            | some depTask => depTask.type = depType
            | none => false)
          if alreadyHasDep then deps
          else
            match jsSortBy (fun t => t.priority) (tasksByType depType) with
            | [] => deps
            | highest :: _ => deps ++ [highest.id])
      task.dependencies
    { task with dependencies := newDependencies })

/-- State of the depth-first traversal in `sortTasksByDependencies`. -/
structure VisitSt where
  visited : List String
  temp : List String
  result : List String
deriving DecidableEq, Repr

/-- Embedding of the recursive `visit(taskId)` helper of
`sortTasksByDependencies`: a `temp` hit is a cycle (warn and return), a
`visited` hit returns, otherwise mark `temp`, visit the dependencies that
exist in the plan, then unmark `temp`, mark `visited` and emit.  The fuel
argument only bounds the recursion depth, which in any call from
`sortTasksByDependencies` is at most the number of tasks (the `temp` set
grows along every descent), so the fuel passed there is never exhausted. -/
def visitTask (graph : String → List String) (hasTask : String → Bool) :
    Nat → String → VisitSt → VisitSt
  | 0, _, st => st
  | fuel + 1, taskId, st =>
      if st.temp.contains taskId then st
      else if st.visited.contains taskId then st
      else
        let st1 : VisitSt := { st with temp := st.temp ++ [taskId] }
        let st2 := (graph taskId).foldl
          (fun acc depId =>
            if hasTask depId then visitTask graph hasTask fuel depId acc
            else acc)
          st1
        { visited := st2.visited ++ [taskId]
          temp := st2.temp.filter (fun x => x ≠ taskId)
          result := st2.result ++ [taskId] }

/-- Embedding of `sortTasksByDependencies(tasks)`: depth-first traversal over
the dependency graph, then `result.reverse().map(id => tasks[taskMap.get(id)])`. -/
def sortTasksByDependencies (tasks : List TaskD) : List TaskD :=
  let taskIdx := tasks.enum.foldl (fun m p => mapSet m p.snd.id p.fst) []
  let depsMap := tasks.foldl (fun m t => mapSet m t.id t.dependencies) []
  let graph := fun id => (mapGet depsMap id).getD []
  let hasTask := fun id => mapHas taskIdx id
  let final := tasks.foldl
    (fun st t =>
      if st.visited.contains t.id then st
      else visitTask graph hasTask (tasks.length + 1) t.id st)
    { visited := [], temp := [], result := [] }
  final.result.reverse.filterMap
    (fun id => (mapGet taskIdx id).bind (fun i => tasks.get? i))

/-- The processing `decomposeQuery` applies to a successfully parsed task
list before handing it to the plan builder: logical-dependency injection
followed by the topological sort. -/
def decomposeNormalize (tasks : List TaskD) : List TaskD :=
  sortTasksByDependencies (enforceLogicalDependencies tasks)

/-- The fixed default 5-task decomposition returned by `getDefaultTasks`
whenever decomposition fails or yields no parseable structure. -/
def getDefaultTasksD : List TaskD :=
  [ { id := "task-1", type := "MEMORY_CHECK"
      description := "Check if query can be answered from memory"
      input := "User query", output := "Memory check result"
      dependencies := [], priority := 1 }
  , { id := "task-2", type := "INTENT_CLASSIFICATION"
      description := "Classify user intent"
      input := "User query", output := "Intent classification"
      dependencies := [], priority := 1 }
  , { id := "task-3", type := "TOOL_SELECTION"
      description := "Select appropriate tool based on intent"
      input := "Intent classification", output := "Selected tool"
      dependencies := ["task-2"], priority := 2 }
  , { id := "task-4", type := "INFORMATION_GATHERING"
      description := "Gather information using selected tool"
      input := "Selected tool", output := "Retrieved information"
      dependencies := ["task-3"], priority := 3 }
  , { id := "task-5", type := "SYNTHESIS"
      description := "Synthesize answer from gathered information"
      input := "Retrieved information", output := "Final answer"
      dependencies := ["task-4"], priority := 4 } ]

/-- Canonical ordering of reasoning steps used by the plan builder. -/
def typeOrder : List String :=
  ["MEMORY_CHECK", "INTENT_CLASSIFICATION", "TOOL_SELECTION",
   "INFORMATION_GATHERING", "SYNTHESIS", "VERIFICATION"]

/- ----------------------------------------------------------------- -/
/- Plan builder and Step Executor                                     -/
/- ----------------------------------------------------------------- -/

/-- One entry of `plan.results` (`{step, result}`, plus `alternative` when
the entry came from a successful alternative approach). -/
structure ResultEntry where
  step : Step
  result : StepResult
  alternative : Option String := none
deriving DecidableEq, Repr

/-- The plan object.  `completed` is absent (JS `undefined`, falsy) until
`executeNextStep` sets it, so it starts `false`.  The flag fields mirror the
properties the executor spreads onto the returned plan. -/
structure Plan where
  query : String
  steps : List Step
  currentStepIndex : Nat
  results : List ResultEntry
  startTime : Nat := 1
  completed : Bool := false
  lastStepSuccessful : Option Bool := none
  skippedStep : Bool := false
  usedAlternative : Bool := false
  error : Option String := none
deriving DecidableEq, Repr

/-- The `MEMORY_CHECK` bookend step that `planQueryExecution` unshifts when
no memory-check task exists. -/
def memoryBookend : Step :=
  { id := some "task-memory", type := "MEMORY_CHECK"
    description := "Check if query can be answered from memory"
    input := some "User query", output := some "Memory check result"
    dependencies := some [], priority := some 0, optional := false }

/-- The `VERIFICATION` bookend step that `planQueryExecution` appends when no
verification task exists (`priority: typeOrder.length`). -/
def verificationBookend : Step :=
  { id := some "task-verification", type := "VERIFICATION"
    description := "Verify the synthesized answer"
    input := some "Synthesized answer", output := some "Verification result"
    dependencies := some [], priority := some 6, optional := false }

/-- Embedding of the plan construction in `planQueryExecution` after
decomposition has produced `decomposedTasks`: convert to steps, apply the
canonical (stable) type re-sort, add the mandatory bookends, and initialize
the state manager with the final step list. -/
def planFromDecomposed (userQuery : String) (decomposedTasks : List TaskD) :
    Plan × SMState :=
  let steps : List Step := decomposedTasks.map (fun t =>
    { id := some t.id, type := t.type, description := t.description
      input := some t.input, output := some t.output
      dependencies := some t.dependencies, priority := some t.priority
      optional := t.optional })
  let sorted := jsSortBy (fun st => (jsIndexOf typeOrder st.type : Int)) steps
  let existingTypes := sorted.map (fun st => st.type)
  let steps2 :=
    if existingTypes.contains "MEMORY_CHECK" then sorted
    else memoryBookend :: sorted
  let steps3 :=
    if existingTypes.contains "VERIFICATION" then steps2
    else steps2 ++ [verificationBookend]
  let p : Plan :=
    { query := userQuery, steps := steps3, currentStepIndex := 0, results := [] }
  (p, initializePlan emptySM steps3)

/-- The `validateStepInputs` result object. -/
structure Validation where
  valid : Bool
  reason : Option String := none
  fixable : Bool := false
  missingStep : Option String := none
deriving DecidableEq, Repr

/-- Embedding of `validateStepInputs(step, plan)`: type-specific checks over
the previous results. -/
def validateStepInputs (step : Step) (p : Plan) : Validation :=
  let previousResults := p.results
  if step.type = "SYNTHESIS" then
    if (previousResults.filter (fun r =>
          r.step.type = "INFORMATION_GATHERING" ∧ r.result.success)).length = 0 then
      { valid := false, reason := some "No information available for synthesis"
        fixable := true, missingStep := some "INFORMATION_GATHERING" }
    else { valid := true }
  else if step.type = "VERIFICATION" then
    if (previousResults.filter (fun r =>
          r.step.type = "SYNTHESIS" ∧ r.result.success)).length = 0 then
      { valid := false
        reason := some "No synthesis result available for verification"
        fixable := true, missingStep := some "SYNTHESIS" }
    else { valid := true }
  else if step.type = "INFORMATION_GATHERING" then
    if (previousResults.filter (fun r =>
          r.step.type = "TOOL_SELECTION" ∧ r.result.success)).length = 0 then
      { valid := false
        reason := some "No tool selected for information gathering"
        fixable := true, missingStep := some "TOOL_SELECTION" }
    else { valid := true }
  else { valid := true }

/-- Embedding of `createFixingStep(originalStep, validation)`.  Template
interpolation of an absent field prints the string `undefined`. -/
def createFixingStep (originalStep : Step) (v : Validation) : Step :=
  let missing := v.missingStep.getD "undefined"
  { id := some ("fix-" ++ originalStep.id.getD "undefined")
    type := missing
    description := "Auto-generated " ++ missing ++
      " step to fix missing input for " ++ originalStep.type
    optional := false
    dependencies := some (originalStep.dependencies.getD []) }

/-- The collaborator environment (§6 of the spec): outcomes of the external
calls the executor dispatches to.  `Except.error msg` models a thrown
exception with message `msg`.  `executeInformationGathering`,
`executeSingleUrlProcessing` and `executeDirectSynthesis` wrap their bodies
in `try/catch` and always return a result object, so they are total.
`userMsg` is the `context.userMsg` the Advisor reads. -/
structure Env where
  memoryCheck : Except String StepResult
  intentClassification : Except String StepResult
  toolSelection : Except String StepResult
  informationGathering : StepResult
  directSynthesis : StepResult
  singleUrl : StepResult
  runAlt : String → Except String StepResult
  userMsg : String

/-- Embedding of `executeVerification(query, results, context)`: surface the
synthesis response if present (JS truthiness: an absent or empty `response`
fails the check). -/
def executeVerification (results : List ResultEntry) : StepResult :=
  match results.find? (fun r => r.step.type = "SYNTHESIS") with
  | some synth =>
      match synth.result.response with
      | some resp =>
          if resp = "" then
            { success := false
              error := some "No synthesis result available for verification" }
          else { success := true, response := some resp }
      | none =>
          { success := false
            error := some "No synthesis result available for verification" }
  | none =>
      { success := false
        error := some "No synthesis result available for verification" }

/-- The report string `executeSynthesis` assembles from a structured
`REASONING_TOOL` result. -/
def synthesisReport (query : String) (rt : ToolResult) : String :=
  let base := "Report for \"" ++ query ++ "\":\n"
  let base := match rt.conclusion with
    | some c => base ++ "\nConclusion: " ++ c ++ "\n"
    | none => base
  base

/-- Embedding of `executeSynthesis(query, results, context)`: prefer a
structured `REASONING_TOOL` report, then a summary of a successful
information-gathering result, then fall back to `executeDirectSynthesis`
(an external content-generation call, hence `env.directSynthesis`). -/
def executeSynthesis (query : String) (results : List ResultEntry)
    (env : Env) : StepResult :=
  let second : StepResult :=
    match results.find? (fun r =>
        r.step.type = "INFORMATION_GATHERING" ∧ r.result.success) with
    | some infoStep =>
        match infoStep.result.toolResult with
        | some tr =>
            match tr.results with
            | some hits =>
                let summary := String.intercalate "\n"
                  (hits.enum.map (fun p =>
                    toString (p.fst + 1) ++ ". " ++ p.snd))
                { success := true
                  response := some ("I found the following top results for \"" ++
                    query ++ "\":\n" ++ summary) }
            | none =>
                match tr.content with
                | some c =>
                    if c = "" then env.directSynthesis
                    else
                      { success := true
                        response := some ("Here is the content from " ++
                          tr.url.getD "undefined" ++ ":\n" ++ c) }
                | none => env.directSynthesis
        | none => env.directSynthesis
    | none => env.directSynthesis
  match results.find? (fun r =>
      r.step.type = "INFORMATION_GATHERING" ∧
      r.result.selectedTool = some "REASONING_TOOL") with
  | some infoToolStep =>
      match infoToolStep.result.toolResult with
      | some rt => { success := true, response := some (synthesisReport query rt) }
      | none => second
  | none => second

/-- The dispatch switch of `executeNextStep` (step 5 of §4.4): the four
gathering-phase types call external collaborators; `SYNTHESIS` and
`VERIFICATION` run the in-repo composition code above; an unknown type yields
the `Unknown step type` failure object without throwing. -/
def dispatchStep (env : Env) (p : Plan) (t : String) : Except String StepResult :=
  if t = "MEMORY_CHECK" then env.memoryCheck
  else if t = "INTENT_CLASSIFICATION" then env.intentClassification
  else if t = "TOOL_SELECTION" then env.toolSelection
  else if t = "INFORMATION_GATHERING" then Except.ok env.informationGathering
  else if t = "SYNTHESIS" then Except.ok (executeSynthesis p.query p.results env)
  else if t = "VERIFICATION" then Except.ok (executeVerification p.results)
  else Except.ok { success := false, error := some ("Unknown step type: " ++ t) }

/-- The retry switch on `alternative.approach`: the five known approaches
dispatch to collaborators (`executeToolWithName` rethrows collaborator
errors; single-URL processing and direct synthesis never throw); any other
label falls to the `default` case, which returns an `Unknown alternative
approach` failure object without throwing. -/
def runAlternative (env : Env) (approach : String) : Except String StepResult :=
  if approach = "WEB_SEARCH" then env.runAlt "WEB_SEARCH"
  else if approach = "READ_URL" then env.runAlt "READ_URL"
  else if approach = "REASONING_TOOL" then env.runAlt "REASONING_TOOL"
  else if approach = "SINGLE_URL_PROCESSING" then Except.ok env.singleUrl
  else if approach = "DIRECT_SYNTHESIS" then Except.ok env.directSynthesis
  else Except.ok { success := false
                   error := some ("Unknown alternative approach: " ++ approach) }

/-- The final failure handling of `executeNextStep` (both the main dispatch
and any alternative failed): skip an optional step, otherwise record the
error on the plan and advance the cursor anyway. -/
def afterFail (p : Plan) (s : SMState) (errMsg : String) (currentStep : Step)
    (taskId : String) : Plan × SMState :=
  if currentStep.optional then
    ({ p with currentStepIndex := p.currentStepIndex + 1
              completed := decide (p.currentStepIndex + 1 ≥ p.steps.length)
              lastStepSuccessful := some false
              skippedStep := true },
     (updateTaskState s taskId TState.skipped).fst)
  else
    ({ p with error := some errMsg
              currentStepIndex := p.currentStepIndex + 1
              completed := decide (p.currentStepIndex + 1 ≥ p.steps.length)
              lastStepSuccessful := some false }, s)

/-- Embedding of `executeNextStep(plan, context)`.  The fuel argument bounds
the `insert fixing step then recurse` self-call; one recursion strictly
descends the chain VERIFICATION → SYNTHESIS → INFORMATION_GATHERING →
TOOL_SELECTION (the inserted step's type), so a fuel of 4 plus the top-level
call is always sufficient and the fuel-exhaustion branch is unreachable in
every run considered below. -/
def executeNextStep (env : Env) : Nat → Plan → SMState → Plan × SMState
  | 0, p, s => (p, s)
  | fuel + 1, p, s =>
      if p.currentStepIndex ≥ p.steps.length then
        ({ p with completed := true }, s)
      else
        match p.steps.get? p.currentStepIndex with
        | none => ({ p with completed := true }, s)
        | some currentStep =>
            let taskId := currentStep.id.getD ("task-" ++ toString p.currentStepIndex)
            let validation := validateStepInputs currentStep p
            if ¬ validation.valid then
              if validation.fixable then
                let fixStep := createFixingStep currentStep validation
                let steps2 := p.steps.take p.currentStepIndex ++ [fixStep] ++
                  p.steps.drop p.currentStepIndex
                let p2 := { p with steps := steps2 }
                let s2 := initializePlan s steps2
                executeNextStep env fuel p2 s2
              else
                ({ p with currentStepIndex := p.currentStepIndex + 1
                          skippedStep := true
                          lastStepSuccessful := some false },
                 (updateTaskState s taskId TState.skipped).fst)
            else
              let s2 := (updateTaskState s taskId TState.in_progress).fst
              match dispatchStep env p currentStep.type with
              | Except.ok stepResult =>
                  let s3 := recordSuccess s2 taskId stepResult
                  ({ p with results := p.results ++ [{ step := currentStep, result := stepResult }]
                            currentStepIndex := p.currentStepIndex + 1
                            completed := decide (p.currentStepIndex + 1 ≥ p.steps.length)
                            lastStepSuccessful := some true }, s3)
              | Except.error errMsg =>
                  let s3 := recordFailure s2 taskId currentStep.type errMsg
                  match suggestAlternativeApproach s3 taskId env.userMsg with
                  | some alt =>
                      if alt.approach ≠ "ASK_CLARIFICATION" then
                        match runAlternative env alt.approach with
                        | Except.ok retryResult =>
                            let s4 := recordSuccess s3 taskId retryResult
                            ({ p with results := p.results ++
                                        [{ step := currentStep, result := retryResult
                                           alternative := some alt.approach }]
                                      currentStepIndex := p.currentStepIndex + 1
                                      completed := decide (p.currentStepIndex + 1 ≥ p.steps.length)
                                      lastStepSuccessful := some true
                                      usedAlternative := true }, s4)
                        | Except.error retryErr =>
                            let s4 := recordFailure s3 taskId alt.approach retryErr
                            afterFail p s4 errMsg currentStep taskId
                      else afterFail p s3 errMsg currentStep taskId
                  | none => afterFail p s3 errMsg currentStep taskId

/- ----------------------------------------------------------------- -/
/- Concrete scenarios                                                 -/
/- ----------------------------------------------------------------- -/

/-- The decomposer output of the spec §8 scenario: a single `SYNTHESIS` task
with no dependencies (all other fields at the defaults the validation step
substitutes). -/
def t1Raw : TaskD := { id := "t1", type := "SYNTHESIS" }

/-- A collaborator environment in which the memory service succeeds but the
tool-selection collaborator and every alternative-approach tool call throw
the error `boom`; single-URL processing and direct synthesis report failure
(they never throw in the source). -/
def envFail : Env :=
  { memoryCheck := Except.ok { success := true }
    intentClassification := Except.ok { success := true }
    toolSelection := Except.error "boom"
    informationGathering := { success := false, error := some "boom" }
    directSynthesis := { success := false, error := some "boom" }
    singleUrl := { success := false, error := some "boom" }
    runAlt := fun _ => Except.error "boom"
    userMsg := "" }

/-- The plan built for the single-`SYNTHESIS` decomposition (after
normalization both bookends are added). -/
def scenStart : Plan × SMState :=
  planFromDecomposed "q" (decomposeNormalize [t1Raw])

/-- Repeated invocation of `executeNextStep` on the failure scenario. -/
def scenExec : Nat → Plan × SMState
  | 0 => scenStart
  | n + 1 => executeNextStep envFail 6 (scenExec n).fst (scenExec n).snd

/-- A collaborator environment in which every collaborator call succeeds on
the first attempt (plain successful results without structured tool
payloads; direct synthesis produces a response). -/
def okEnv : Env :=
  { memoryCheck := Except.ok { success := true }
    intentClassification := Except.ok { success := true }
    toolSelection := Except.ok { success := true }
    informationGathering := { success := true }
    directSynthesis := { success := true, response := some "answer" }
    singleUrl := { success := true }
    runAlt := fun _ => Except.ok { success := true }
    userMsg := "" }

/-- The plan built when decomposition fails: the default 5-task set from
`getDefaultTasks`, which `planQueryExecution` then extends with the
`VERIFICATION` bookend. -/
def defStart : Plan × SMState := planFromDecomposed "q" getDefaultTasksD

/-- Repeated invocation of `executeNextStep` on the all-success default
plan. -/
def defExec : Nat → Plan × SMState
  | 0 => defStart
  | n + 1 => executeNextStep okEnv 6 (defExec n).fst (defExec n).snd

/-- The state of a task as the manager records it (`none` when the id is
unknown or the map value is not a task object). -/
def taskStateIn (s : SMState) (taskId : String) : Option TState :=
  match mapGet s.tasks taskId with
  | some (TaskVal.obj t) => some t.state
  | _ => none

/- ----------------------------------------------------------------- -/
/- C1                                                                 -/
/- ----------------------------------------------------------------- -/

/-- A task of an unknown type that depends on `taskB`. -/
def taskA : TaskD := { id := "a", type := "GENERIC", dependencies := ["b"] }

/-- A task of the same unknown type with no dependencies. -/
def taskB : TaskD := { id := "b", type := "GENERIC" }

/-- C1: the claim fails on the code.  For the two-task input where `a`
depends on `b` (both of the same type, so neither logical-dependency
injection nor the canonical type re-sort changes anything), the full
pipeline — `enforceLogicalDependencies`, the depth-first `visit` traversal,
the final `.reverse()`, and the stable canonical type re-sort of
`planQueryExecution` — emits `a` *before* its retained dependency `b`.  The
DFS emits each task after its dependencies (`result` is already
dependency-first), so the trailing `result.reverse()` hands execution order
to dependents first; the type re-sort masks this only when dependencies
happen to follow the canonical type order. -/
theorem c1_resolver_order_violated :
    (decomposeNormalize [taskA, taskB]).map (fun t => t.id) = ["a", "b"] ∧
    (planFromDecomposed "q" (decomposeNormalize [taskA, taskB])).fst.steps.map
        (fun st => st.id) =
      [some "task-memory", some "a", some "b", some "task-verification"] ∧
    ((decomposeNormalize [taskA, taskB]).getD 0 taskB).dependencies = ["b"] := by
  decide

/- ----------------------------------------------------------------- -/
/- C2                                                                 -/
/- ----------------------------------------------------------------- -/

/-- A manager initialized with a single pending task `t1`. -/
def c2s0 : SMState :=
  initializePlan emptySM [{ id := some "t1", type := "MEMORY_CHECK" }]

/-- The state after restoring the `plan_initialized` checkpoint. -/
def c2s1 : SMState := (restoreCheckpoint c2s0 "plan_initialized").fst

/-- The state after creating a fresh checkpoint right after the restore. -/
def c2s2 : SMState := createCheckpoint c2s1 "again"

/-- C2: the claim fails on the code.  `restoreCheckpoint` copies the
checkpoint's *state-string* map into `this.tasks`; the immediately following
`createCheckpoint` then snapshots `task.state` of bare state strings, which
is JS `undefined`.  So the round-trip checkpoint maps task `t1` to
`undefined` instead of the captured state `pending` (the results and
failure-history snapshots do round-trip, being copied map-to-map). -/
theorem c2_restore_create_roundtrip_broken :
    (restoreCheckpoint c2s0 "plan_initialized").snd = true ∧
    (c2s0.checkpoints.getD 0 (mkCheckpoint emptySM "junk")).taskStates =
      [("t1", TaskVal.str TState.pending)] ∧
    (c2s2.checkpoints.getD 1 (mkCheckpoint emptySM "junk")).name = "again" ∧
    (c2s2.checkpoints.getD 1 (mkCheckpoint emptySM "junk")).taskStates =
      [("t1", TaskVal.undef)] ∧
    (c2s2.checkpoints.getD 1 (mkCheckpoint emptySM "junk")).taskStates ≠
      (c2s0.checkpoints.getD 0 (mkCheckpoint emptySM "junk")).taskStates ∧
    (c2s2.checkpoints.getD 1 (mkCheckpoint emptySM "junk")).resultsSnapshot =
      (c2s0.checkpoints.getD 0 (mkCheckpoint emptySM "junk")).resultsSnapshot ∧
    (c2s2.checkpoints.getD 1 (mkCheckpoint emptySM "junk")).approachesSnapshot =
      (c2s0.checkpoints.getD 0 (mkCheckpoint emptySM "junk")).approachesSnapshot := by
  decide

/- ----------------------------------------------------------------- -/
/- C5                                                                 -/
/- ----------------------------------------------------------------- -/

/-- C5: the claim fails on the code.  In the failure scenario the
`MEMORY_CHECK` bookend completes on the first `executeNextStep` call.  The
second call reaches the `SYNTHESIS` task, whose input validation fails, so a
fixing task is spliced in and `plan.stateManager.initializePlan(plan)` is
re-run on the whole plan — re-registering *every* task at state `pending`
and thereby moving the already-completed `task-memory` from `completed` back
to `pending`. -/
theorem c5_completed_task_reset_to_pending :
    taskStateIn (scenExec 1).snd "task-memory" = some TState.completed ∧
    taskStateIn (scenExec 2).snd "task-memory" = some TState.pending := by
  decide

/- ----------------------------------------------------------------- -/
/- C9                                                                 -/
/- ----------------------------------------------------------------- -/

/-- C9 counterexample: the claim fails on the code.  The plan produced when
decomposition fails consists of the 5 default tasks *plus* the
`VERIFICATION` bookend appended by `planQueryExecution`, so an all-success
run completes with **6** result entries and `getTaskStatus()` reporting
`completed: 6` — not the claimed 5. -/
theorem c9_default_plan_has_six_entries :
    (defExec 6).fst.completed = true ∧
    (defExec 6).fst.results.length = 6 ∧
    (getTaskStatus (defExec 6).snd).completed = 6 := by
  decide

/-- C9 amended: with every collaborator call succeeding on the first attempt
(no alternative approaches used), the decomposition-failure plan — 5 default
tasks plus the appended `VERIFICATION` bookend — runs to completion:
`plan.completed` is true, `plan.results` has exactly 6 entries in canonical
type order, every entry is a first-attempt success, and `getTaskStatus()`
reports `completed: 6, failed: 0, pending: 0`. -/
theorem c9_default_plan_all_success_run :
    (defExec 6).fst.completed = true ∧
    (defExec 6).fst.results.map (fun r => r.step.type) =
      ["MEMORY_CHECK", "INTENT_CLASSIFICATION", "TOOL_SELECTION",
       "INFORMATION_GATHERING", "SYNTHESIS", "VERIFICATION"] ∧
    (∀ r ∈ (defExec 6).fst.results, r.result.success = true ∧ r.alternative = none) ∧
    getTaskStatus (defExec 6).snd =
      { pending := 0, inProgress := 0, completed := 6, failed := 0,
        skipped := 0, total := 6 } := by
  decide

/- ----------------------------------------------------------------- -/
/- C6: non-termination of the fixing-task insertion loop              -/
/- ----------------------------------------------------------------- -/

/-- The fixing step `executeNextStep` splices in front of the `t1`
`SYNTHESIS` step when its validation finds no successful information
gathering. -/
def fixT1Step : Step :=
  { id := some "fix-t1", type := "INFORMATION_GATHERING"
    description := "Auto-generated INFORMATION_GATHERING step to fix missing input for SYNTHESIS"
    dependencies := some [], optional := false }

/-- The second-generation fixing step spliced in front of `fix-t1` when its
validation finds no successful tool selection. -/
def ffxStep : Step :=
  { id := some "fix-fix-t1", type := "TOOL_SELECTION"
    description := "Auto-generated TOOL_SELECTION step to fix missing input for INFORMATION_GATHERING"
    dependencies := some [], optional := false }

/-- The splice `plan.steps.splice(idx, 0, fixStep)` produces. -/
def spliceAt (l : List α) (n : Nat) (x : α) : List α :=
  l.take n ++ [x] ++ l.drop n

theorem length_spliceAt (l : List α) (n : Nat) (x : α) (h : n ≤ l.length) :
    (spliceAt l n x).length = l.length + 1 := by
  simp [spliceAt, List.length_take, List.length_drop]
  omega

theorem get?_spliceAt_self (l : List α) (n : Nat) (x : α) (h : n ≤ l.length) :
    (spliceAt l n x).get? n = some x := by
  have hlen : (l.take n).length = n := by simp [List.length_take]; omega
  simp only [spliceAt, List.append_assoc, List.singleton_append, List.get?_eq_getElem?]
  rw [List.getElem?_append_right (by omega)]
  simp [hlen]

theorem get?_spliceAt_succ (l : List α) (n : Nat) (x : α) (h : n ≤ l.length) :
    (spliceAt l n x).get? (n + 1) = l.get? n := by
  have hlen : (l.take n).length = n := by simp [List.length_take]; omega
  simp only [spliceAt, List.append_assoc, List.singleton_append, List.get?_eq_getElem?]
  rw [List.getElem?_append_right (by omega)]
  have h1 : n + 1 - (l.take n).length = 1 := by omega
  rw [h1]
  simp [List.getElem?_drop]

theorem mem_spliceAt (l : List α) (n : Nat) (x : α) (a : α)
    (ha : a ∈ spliceAt l n x) : a = x ∨ a ∈ l := by
  simp only [spliceAt, List.mem_append] at ha
  rcases ha with (h | h) | h
  · exact Or.inr (List.mem_of_mem_take h)
  · simp at h; exact Or.inl h
  · exact Or.inr (List.mem_of_mem_drop h)

/-- Under `envFail`, every alternative approach either throws `boom` (the
five known approaches all dispatch to failing collaborators) or falls to the
`default` case and yields an unsuccessful result object. -/
theorem runAlternative_envFail (a : String) :
    runAlternative envFail a = Except.error "boom" ∨
    ∃ r, runAlternative envFail a = Except.ok r ∧ r.success = false := by
  unfold runAlternative
  by_cases h1 : a = "WEB_SEARCH" <;> by_cases h2 : a = "READ_URL" <;>
    by_cases h3 : a = "REASONING_TOOL" <;>
    by_cases h4 : a = "SINGLE_URL_PROCESSING" <;>
    by_cases h5 : a = "DIRECT_SYNTHESIS" <;>
    simp [h1, h2, h3, h4, h5, envFail]

/-- One `executeNextStep` invocation whose current step is the
`TOOL_SELECTION` fixing task, under `envFail`: the step validates, its
dispatch throws, and whatever the Advisor suggests, the invocation advances
the cursor by exactly one, leaves the step list unchanged, and appends at
most one result entry — an unsuccessful one for the fixing task. -/
theorem c6_inner (f : Nat) (p : Plan) (s : SMState)
    (hlt : p.currentStepIndex < p.steps.length)
    (hcur : p.steps.get? p.currentStepIndex = some ffxStep) :
    (executeNextStep envFail (f + 1) p s).fst.currentStepIndex =
        p.currentStepIndex + 1 ∧
    (executeNextStep envFail (f + 1) p s).fst.steps = p.steps ∧
    (executeNextStep envFail (f + 1) p s).fst.completed =
        decide (p.currentStepIndex + 1 ≥ p.steps.length) ∧
    ((executeNextStep envFail (f + 1) p s).fst.results = p.results ∨
      ∃ e, (executeNextStep envFail (f + 1) p s).fst.results = p.results ++ [e] ∧
        e.step = ffxStep ∧ e.result.success = false) := by
  have hge : ¬ p.currentStepIndex ≥ p.steps.length := not_le.mpr hlt
  have hval : validateStepInputs ffxStep p = { valid := true } := by
    simp [validateStepInputs, ffxStep]
  have hdisp : dispatchStep envFail p ffxStep.type = Except.error "boom" := by
    simp [dispatchStep, ffxStep, envFail]
  simp only [executeNextStep, hcur, hge, if_false, ite_false]
  simp only [hval, hdisp]
  cases hsug : suggestAlternativeApproach
      (recordFailure ((updateTaskState s (ffxStep.id.getD ("task-" ++ toString p.currentStepIndex)) TState.in_progress).fst)
        (ffxStep.id.getD ("task-" ++ toString p.currentStepIndex)) ffxStep.type "boom")
      (ffxStep.id.getD ("task-" ++ toString p.currentStepIndex)) envFail.userMsg with
  | none =>
      simp only [hsug, afterFail, ffxStep]
      simp
  | some alt =>
      simp only [hsug]
      by_cases happ : alt.approach = "ASK_CLARIFICATION"
      · simp only [happ, ne_eq, not_true_eq_false, ite_false, afterFail, ffxStep]
        simp [afterFail]
      · rcases runAlternative_envFail alt.approach with hra | ⟨r, hra, hrs⟩
        · simp only [ne_eq, happ, not_false_eq_true, ite_true, hra, afterFail, ffxStep]
          simp [afterFail]
        · simp only [ne_eq, happ, not_false_eq_true, ite_true, hra]
          refine ⟨rfl, rfl, rfl, Or.inr ⟨_, rfl, rfl, hrs⟩⟩

/-- The loop invariant of the failure scenario: the cursor sits on the
`INFORMATION_GATHERING` fixing task `fix-t1`, no recorded result is a
successful `TOOL_SELECTION`, and the only step bearing the id `fix-fix-t1`
is the canonical `TOOL_SELECTION` fixing step. -/
def c6Inv (p : Plan) : Prop :=
  p.completed = false ∧
  p.currentStepIndex < p.steps.length ∧
  p.steps.get? p.currentStepIndex = some fixT1Step ∧
  (∀ r ∈ p.results, r.step.type = "TOOL_SELECTION" → r.result.success = false) ∧
  (∀ st ∈ p.steps, st.id = some "fix-fix-t1" → st = ffxStep)

theorem c6_preserved (f : Nat) (p : Plan) (s : SMState) (h : c6Inv p) :
    c6Inv (executeNextStep envFail (f + 1 + 1) p s).fst := by
  obtain ⟨hc, hlt, hcur, hres, hids⟩ := h
  have hge : ¬ p.currentStepIndex ≥ p.steps.length := not_le.mpr hlt
  have hle : p.currentStepIndex ≤ p.steps.length := le_of_lt hlt
  have hval : validateStepInputs fixT1Step p =
      { valid := false, reason := some "No tool selected for information gathering",
        fixable := true, missingStep := some "TOOL_SELECTION" } := by
    simp [validateStepInputs, fixT1Step]
    exact hres
  have hfix : createFixingStep fixT1Step
      { valid := false, reason := some "No tool selected for information gathering",
        fixable := true, missingStep := some "TOOL_SELECTION" } = ffxStep := by decide
  have hcur2 : p.steps[p.currentStepIndex]? = some fixT1Step := by
    simpa using hcur
  have hstep : executeNextStep envFail (f + 1 + 1) p s =
      executeNextStep envFail (f + 1)
        { p with steps := p.steps.take p.currentStepIndex ++ [ffxStep] ++
            p.steps.drop p.currentStepIndex }
        (initializePlan s (p.steps.take p.currentStepIndex ++ [ffxStep] ++
            p.steps.drop p.currentStepIndex)) := by
    rw [executeNextStep]
    simp [hge, hcur2, hval, hfix]
  rw [hstep]
  have hsp : p.steps.take p.currentStepIndex ++ [ffxStep] ++
      p.steps.drop p.currentStepIndex = spliceAt p.steps p.currentStepIndex ffxStep := rfl
  rw [hsp]
  have hlen2 : (spliceAt p.steps p.currentStepIndex ffxStep).length =
      p.steps.length + 1 := length_spliceAt _ _ _ hle
  obtain ⟨hq1, hq2, hq3, hq4⟩ := c6_inner f
    { p with steps := spliceAt p.steps p.currentStepIndex ffxStep }
    (initializePlan s (spliceAt p.steps p.currentStepIndex ffxStep))
    (by simpa [hlen2] using Nat.lt_succ_of_lt hlt)
    (by simpa using get?_spliceAt_self p.steps p.currentStepIndex ffxStep hle)
  refine ⟨?_, ?_, ?_, ?_, ?_⟩
  · rw [hq3]
    simp only [hlen2]
    simp only [decide_eq_false_iff_not]
    simp only [ge_iff_le, not_le]
    omega
  · rw [hq1, hq2]
    simp only [hlen2]
    omega
  · rw [hq1, hq2]
    rw [get?_spliceAt_succ p.steps p.currentStepIndex ffxStep hle]
    exact hcur
  · rcases hq4 with hsame | ⟨e, heq, hestep, hesucc⟩
    · rw [hsame]
      simpa using hres
    · rw [heq]
      intro r hr
      rcases List.mem_append.mp hr with hold | hnew
      · exact hres r (by simpa using hold)
      · simp only [List.mem_singleton] at hnew
        subst hnew
        intro _
        exact hesucc
  · rw [hq2]
    intro st hst hid
    rcases mem_spliceAt _ _ _ _ (by simpa using hst) with hx | hmem
    · exact hx
    · exact hids st hmem hid

/-- C6: the claim fails on the code.  On the spec §8 scenario input (a single
`SYNTHESIS` task) with a tool-selection collaborator that always throws,
every `executeNextStep` call after the first splices a **fresh**
`TOOL_SELECTION` fixing task in front of the cursor and advances past only
that fixing task, so `currentStepIndex` never reaches `steps.length`:
`plan.completed` is false after every number of invocations — the number of
`executeNextStep` calls needed for completion is not bounded. -/
theorem c6_plan_never_completes : ∀ n, (scenExec n).fst.completed = false := by
  have base : c6Inv (scenExec 2).fst := by
    unfold c6Inv
    decide
  have ind : ∀ k, c6Inv (scenExec (k + 2)).fst := by
    intro k
    induction k with
    | zero => exact base
    | succ k ih =>
        exact c6_preserved 4 (scenExec (k + 2)).fst (scenExec (k + 2)).snd ih
  intro n
  rcases n with _ | n
  · decide
  · rcases n with _ | k
    · decide
    · exact (ind k).1

/- ----------------------------------------------------------------- -/
/- C4 / C3: arbitrary State Manager operation sequences               -/
/- ----------------------------------------------------------------- -/

/-- One State Manager operation. -/
inductive MOp where
  | update (id : String) (st : TState)
  | success (id : String) (r : StepResult)
  | failure (id : String) (approach err : String)
  | init (steps : List Step)
  | create (name : String)
  | restore (name : String)

/-- Apply one operation to the manager state. -/
def applyMOp : MOp → SMState → SMState
  | MOp.update id st, s => (updateTaskState s id st).fst
  | MOp.success id r, s => recordSuccess s id r
  | MOp.failure id a e, s => recordFailure s id a e
  | MOp.init steps, s => initializePlan s steps
  | MOp.create name, s => createCheckpoint s name
  | MOp.restore name, s => (restoreCheckpoint s name).fst

/-- Run a sequence of operations. -/
def runOps : List MOp → SMState → SMState
  | [], s => s
  | op :: rest, s => runOps rest (applyMOp op s)

/-- The checkpoints one operation creates (a ghost observation: the same
`mkCheckpoint` call each operation performs, taken at the same intermediate
state). -/
def opCreated : MOp → SMState → List Checkpoint
  | MOp.update _ _, _ => []
  | MOp.success id r, s =>
      [mkCheckpoint (recordSuccessBody s id r) ("task_" ++ id ++ "_completed")]
  | MOp.failure id a e, s =>
      [mkCheckpoint (recordFailureBody s id a e) ("task_" ++ id ++ "_failed")]
  | MOp.init steps, s =>
      [mkCheckpoint (initializePlanBody s steps) "plan_initialized"]
  | MOp.create name, s => [mkCheckpoint s name]
  | MOp.restore _, _ => []

/-- All checkpoints a sequence of operations creates, in creation order. -/
def createdLog : List MOp → SMState → List Checkpoint
  | [], _ => []
  | op :: rest, s => opCreated op s ++ createdLog rest (applyMOp op s)

theorem checkpoints_update (s : SMState) (id : String) (st : TState) :
    (updateTaskState s id st).fst.checkpoints = s.checkpoints := by
  unfold updateTaskState
  cases mapGet s.tasks id with
  | none => rfl
  | some v => cases v <;> rfl

theorem checkpoints_restore (s : SMState) (name : String) :
    (restoreCheckpoint s name).fst.checkpoints = s.checkpoints := by
  unfold restoreCheckpoint
  cases s.checkpoints.find? (fun cp => cp.name = name) <;> rfl

theorem checkpoints_recordSuccessBody (s : SMState) (id : String)
    (r : StepResult) :
    (recordSuccessBody s id r).checkpoints = s.checkpoints := by
  unfold recordSuccessBody
  rw [show ∀ s1 : SMState, ({ s1 with results := mapSet s1.results id r } : SMState).checkpoints = s1.checkpoints from fun _ => rfl]
  exact checkpoints_update s id TState.completed

theorem checkpoints_recordFailureBody (s : SMState) (id a e : String) :
    (recordFailureBody s id a e).checkpoints = s.checkpoints := by
  unfold recordFailureBody
  dsimp only
  split
  · exact checkpoints_update s id TState.failed
  · exact checkpoints_update s id TState.failed

theorem checkpoints_initializePlanBody (s : SMState) (steps : List Step) :
    (initializePlanBody s steps).checkpoints = s.checkpoints := rfl

/-- Every operation changes the ring buffer exactly by pushing the
checkpoints it creates through the trim step. -/
theorem checkpoints_applyMOp (op : MOp) (s : SMState) :
    (applyMOp op s).checkpoints =
      (opCreated op s).foldl (fun l c => trimStep (l ++ [c])) s.checkpoints := by
  cases op with
  | update id st => simpa [applyMOp, opCreated] using checkpoints_update s id st
  | success id r =>
      simp [applyMOp, opCreated, recordSuccess, createCheckpoint,
        checkpoints_recordSuccessBody]
  | failure id a e =>
      simp [applyMOp, opCreated, recordFailure, createCheckpoint,
        checkpoints_recordFailureBody]
  | init steps =>
      simp [applyMOp, opCreated, initializePlan, createCheckpoint,
        checkpoints_initializePlanBody]
  | create name => simp [applyMOp, opCreated, createCheckpoint]
  | restore name => simpa [applyMOp, opCreated] using checkpoints_restore s name

/-- Pushing one element through the trim step preserves the
last-ten-in-order characterisation. -/
theorem trimStep_lastN (log : List Checkpoint) (c : Checkpoint) :
    trimStep (lastN 10 log ++ [c]) = lastN 10 (log ++ [c]) := by
  by_cases h : 10 ≤ log.length
  · have hlen : (lastN 10 log).length = 10 := by
      simp [lastN, List.length_drop]
      omega
    have hne : lastN 10 log ≠ [] := by
      intro hx
      rw [hx] at hlen
      simp at hlen
    obtain ⟨a, t, hat⟩ := List.exists_cons_of_ne_nil hne
    have htail : t = log.drop (log.length - 10 + 1) := by
      have := congrArg List.tail hat
      simp only [lastN] at this ⊢
      rw [List.tail_drop] at this
      simpa using this.symm
    rw [hat]
    unfold trimStep
    have hcond : 10 < ((a :: t) ++ [c]).length := by
      have := congrArg List.length hat
      rw [hlen] at this
      simp at this ⊢
      omega
    rw [if_pos hcond]
    have hR : lastN 10 (log ++ [c]) = log.drop (log.length - 10 + 1) ++ [c] := by
      unfold lastN
      rw [List.length_append]
      have h1 : log.length + [c].length - 10 = log.length - 10 + 1 := by
        simp
        omega
      rw [h1, List.drop_append_of_le_length (by omega)]
    rw [hR, ← htail]
    rfl
  · have h0 : log.length - 10 = 0 := by omega
    have hL : lastN 10 log = log := by simp [lastN, h0]
    have hR : lastN 10 (log ++ [c]) = log ++ [c] := by
      unfold lastN
      rw [List.length_append]
      have : log.length + [c].length - 10 = 0 := by simp; omega
      rw [this]
      simp
    rw [hL, hR]
    unfold trimStep
    rw [if_neg]
    simp
    omega

/-- The ring buffer is always exactly the last ten created checkpoints, in
creation order. -/
theorem runOps_checkpoints (ops : List MOp) :
    ∀ (s : SMState) (log : List Checkpoint), s.checkpoints = lastN 10 log →
      (runOps ops s).checkpoints = lastN 10 (log ++ createdLog ops s) := by
  induction ops with
  | nil =>
      intro s log h
      simpa [runOps, createdLog] using h
  | cons op rest ih =>
      intro s log h
      have hpush : (applyMOp op s).checkpoints = lastN 10 (log ++ opCreated op s) := by
        rw [checkpoints_applyMOp op s, h]
        cases hop : opCreated op s with
        | nil => simp
        | cons c tl =>
            have : tl = [] := by
              cases op <;> simp [opCreated] at hop <;> simp [hop]
            subst this
            simpa using trimStep_lastN log c
      have := ih (applyMOp op s) (log ++ opCreated op s) hpush
      simpa [runOps, createdLog, List.append_assoc] using this

/-- C4: the claim holds.  For every sequence of State Manager operations on
a fresh manager, the checkpoint buffer is exactly the (at most ten) most
recently created checkpoints in creation order, and in particular never
holds more than ten. -/
theorem c4_checkpoint_ring_buffer (ops : List MOp) :
    (runOps ops emptySM).checkpoints = lastN 10 (createdLog ops emptySM) ∧
    (runOps ops emptySM).checkpoints.length ≤ 10 := by
  have h := runOps_checkpoints ops emptySM [] (by rfl)
  simp only [List.nil_append] at h
  refine ⟨h, ?_⟩
  rw [h]
  simp [lastN, List.length_drop]
  omega

/-- Dereference one failure-history array. -/
def heapGet (s : SMState) (r : Nat) : List FailureRec := s.heap.getD r []

/-- The failure history of task `id` as observed *through* a checkpoint's
snapshot: the snapshot holds a reference into the shared array store, so the
observation depends on the current state. -/
def observedHistory (s : SMState) (cp : Checkpoint) (id : String) :
    List FailureRec :=
  match mapGet cp.approachesSnapshot id with
  | some r => heapGet s r
  | none => []

theorem getD_append_extend (h : List (List FailureRec))
    (l' : List FailureRec) (r : Nat) :
    h.getD r [] <+: (h ++ [l']).getD r [] := by
  induction h generalizing r with
  | nil =>
      cases r <;> simp [List.getD]
  | cons a t ih =>
      cases r with
      | zero => simp [List.getD]
      | succ k => simpa [List.getD] using ih k

theorem getD_set_extend (h : List (List FailureRec)) (r0 : Nat)
    (x : List FailureRec) (r : Nat) :
    h.getD r [] <+: (h.set r0 (h.getD r0 [] ++ x)).getD r [] := by
  induction h generalizing r0 r with
  | nil => simp [List.getD]
  | cons a t ih =>
      cases r0 with
      | zero =>
          cases r with
          | zero => simp [List.getD]
          | succ k => simp [List.getD]
      | succ j =>
          cases r with
          | zero => simp [List.getD]
          | succ k => simpa [List.getD] using ih j k

theorem heap_update (s : SMState) (id : String) (st : TState) :
    (updateTaskState s id st).fst.heap = s.heap := by
  unfold updateTaskState
  cases mapGet s.tasks id with
  | none => rfl
  | some v => cases v <;> rfl

theorem heap_restore (s : SMState) (name : String) :
    (restoreCheckpoint s name).fst.heap = s.heap := by
  unfold restoreCheckpoint
  cases s.checkpoints.find? (fun cp => cp.name = name) <;> rfl

/-- Every State Manager operation only ever *extends* the failure-history
arrays in the shared store: the old contents of any array are a prefix of
the new contents. -/
theorem heap_prefix_applyMOp (op : MOp) (s : SMState) (r : Nat) :
    heapGet s r <+: heapGet (applyMOp op s) r := by
  cases op with
  | update id st =>
      simp [applyMOp, heapGet, heap_update]
  | success id rr =>
      have : (recordSuccess s id rr).heap = s.heap := by
        unfold recordSuccess createCheckpoint recordSuccessBody
        rw [show ∀ s1 : SMState, ({ s1 with results := mapSet s1.results id rr } : SMState).heap = s1.heap from fun _ => rfl]
        exact heap_update s id TState.completed
      simp [applyMOp, heapGet, this]
  | failure id a e =>
      have hbody : heapGet s r <+: heapGet (recordFailureBody s id a e) r := by
        unfold recordFailureBody
        dsimp only
        have h1 : heapGet s r = (updateTaskState s id TState.failed).fst.heap.getD r [] := by
          rw [heap_update]
          rfl
        split
        · rw [show heapGet s r = (updateTaskState s id TState.failed).fst.heap.getD r [] from h1]
          exact getD_set_extend _ _ _ r
        · rw [show heapGet s r = (updateTaskState s id TState.failed).fst.heap.getD r [] from h1]
          exact List.IsPrefix.trans (getD_append_extend _ _ r) (getD_set_extend _ _ _ r)
      have hcp : heapGet (recordFailure s id a e) r = heapGet (recordFailureBody s id a e) r := rfl
      simpa [applyMOp, hcp] using hbody
  | init steps =>
      have : (initializePlan s steps).heap = s.heap := rfl
      simp [applyMOp, heapGet, this]
  | create name =>
      simp [applyMOp, heapGet, createCheckpoint]
  | restore name =>
      simp [applyMOp, heapGet, heap_restore]

theorem heap_prefix_runOps (ops : List MOp) :
    ∀ (s : SMState) (r : Nat), heapGet s r <+: heapGet (runOps ops s) r := by
  induction ops with
  | nil => intro s r; exact List.prefix_refl _
  | cons op rest ih =>
      intro s r
      exact List.IsPrefix.trans (heap_prefix_applyMOp op s r) (ih (applyMOp op s) r)

/-- C3 amended: a checkpoint's task-state and result snapshots are copied
maps of values the manager never mutates in place, but its failure-history
snapshot is a shallow copy sharing the live arrays.  Those arrays are
append-only, so after any further sequence of operations the history
observed through the checkpoint is an *extension* of (has as a prefix) the
history captured at creation time — not necessarily equal to it. -/
theorem c3_snapshot_history_prefix (s : SMState) (cp : Checkpoint)
    (hcp : cp ∈ s.checkpoints) (ops : List MOp) (id : String) :
    observedHistory s cp id <+: observedHistory (runOps ops s) cp id := by
  unfold observedHistory
  cases mapGet cp.approachesSnapshot id with
  | none => exact List.prefix_refl _
  | some r => exact heap_prefix_runOps ops s r

/-- A manager whose single task `t` has failed once, creating the
`task_t_failed` checkpoint. -/
def c3s1 : SMState :=
  recordFailure (initializePlan emptySM [{ id := some "t", type := "TOOL_SELECTION" }])
    "t" "TOOL_SELECTION" "boom"

/-- The `task_t_failed` checkpoint of `c3s1`. -/
def c3cp : Checkpoint := c3s1.checkpoints.getD 1 (mkCheckpoint emptySM "junk")

/-- C3 counterexample: the claim fails on the code.  After a second
`recordFailure` for the same task, the failure history observed through the
earlier `task_t_failed` checkpoint has grown from one entry to two: the
snapshot shares the live history array (`new Map(this.approaches)` is a
shallow copy and `recordFailure` pushes onto the shared array), so the
checkpoint is **not** an immutable deep copy. -/
theorem c3_checkpoint_history_mutated :
    c3cp ∈ c3s1.checkpoints ∧
    c3cp.name = "task_t_failed" ∧
    observedHistory c3s1 c3cp "t" =
      [{ approach := "TOOL_SELECTION", error := "boom", timestamp := 1 }] ∧
    observedHistory (runOps [MOp.failure "t" "READ_URL" "boom2"] c3s1) c3cp "t" =
      [{ approach := "TOOL_SELECTION", error := "boom", timestamp := 1 },
       { approach := "READ_URL", error := "boom2", timestamp := 1 }] ∧
    observedHistory (runOps [MOp.failure "t" "READ_URL" "boom2"] c3s1) c3cp "t" ≠
      observedHistory c3s1 c3cp "t" := by
  decide

/-- Witness for `c3_snapshot_history_prefix` at the concrete scenario of the
counterexample. -/
theorem c3_snapshot_history_prefix_witness :
    c3cp ∈ c3s1.checkpoints ∧
    observedHistory c3s1 c3cp "t" <+:
      observedHistory (runOps [MOp.failure "t" "READ_URL" "boom2"] c3s1) c3cp "t" :=
  ⟨by decide,
   c3_snapshot_history_prefix c3s1 c3cp (by decide)
     [MOp.failure "t" "READ_URL" "boom2"] "t"⟩

/- ----------------------------------------------------------------- -/
/- C7                                                                 -/
/- ----------------------------------------------------------------- -/

/-- C7: the claim holds.  For every known task whose failure history
contains at least three distinct approach labels, `suggestAlternativeApproach`
returns the `DIRECT_RESPONSE` escalation with confidence 0.6 — regardless of
the task's type and of the recorded error texts, because the `>= 3` check
runs before both the error-signature checks and the task-type dispatch
(three distinct labels force a history length of at least three, which is
what the source tests). -/
theorem c7_escalation_after_three_distinct (s : SMState) (id : String)
    (ctx : String) (htask : (mapGet s.tasks id).isSome = true)
    (hdist : 3 ≤ ((failHistory s id).map (fun a => a.approach)).dedup.length) :
    suggestAlternativeApproach s id ctx =
      some { approach := "DIRECT_RESPONSE", confidence := 0.6,
             responseType := some "summary",
             previousApproaches := (failHistory s id).map (fun a => a.approach) } := by
  obtain ⟨tv, htv⟩ := Option.isSome_iff_exists.mp htask
  have hlen : 3 ≤ ((failHistory s id).map (fun a => a.approach)).length :=
    le_trans hdist (List.Sublist.length_le (List.dedup_sublist _))
  have hlen2 : ¬ (failHistory s id).length = 0 := by
    simp only [List.length_map] at hlen
    omega
  have hge3 : (failHistory s id).length ≥ 3 := by
    simpa using hlen
  unfold suggestAlternativeApproach
  rw [htv]
  simp [hlen2, hge3]

/-- A manager whose `TOOL_SELECTION` task `t` has failed three times with
distinct approach labels. -/
def c7s : SMState :=
  recordFailure
    (recordFailure
      (recordFailure
        (initializePlan emptySM [{ id := some "t", type := "TOOL_SELECTION" }])
        "t" "TOOL_SELECTION" "e1")
      "t" "READ_URL" "e2")
    "t" "REASONING_TOOL" "e3"

/-- Witness for `c7_escalation_after_three_distinct`: the spec scenario of a
`TOOL_SELECTION` task after its third distinctly-labelled failure. -/
theorem c7_escalation_witness :
    (mapGet c7s.tasks "t").isSome = true ∧
    3 ≤ ((failHistory c7s "t").map (fun a => a.approach)).dedup.length ∧
    suggestAlternativeApproach c7s "t" "" =
      some { approach := "DIRECT_RESPONSE", confidence := 0.6,
             responseType := some "summary",
             previousApproaches := (failHistory c7s "t").map (fun a => a.approach) } :=
  ⟨by decide, by decide,
   c7_escalation_after_three_distinct c7s "t" "" (by decide) (by decide)⟩

/- ----------------------------------------------------------------- -/
/- C8                                                                 -/
/- ----------------------------------------------------------------- -/

/-- C8: the claim holds.  Part one: for an `INFORMATION_GATHERING` task with
a non-empty failure history of fewer than three entries, none of whose error
messages matches a known failure signature, the Advisor returns the first
collaborator of the fixed priority list `WEB_SEARCH, READ_URL, MEMORY_CHECK,
REASONING_TOOL` whose name has not been tried (such a collaborator always
exists, since at most two approaches have been tried).  Part two: when all
four collaborators have been tried, `suggestAlternativeInfoGathering`
suggests `DIRECT_SYNTHESIS` if it is untried, and otherwise falls back to
`ASK_CLARIFICATION` with confidence 0.5. -/
theorem suggestInfoGathering_found (tried : List String) (tp : String × ℚ)
    (h : toolPriorities.find? (fun q => ¬ tried.contains q.fst) = some tp) :
    suggestAlternativeInfoGathering tried =
      { approach := tp.fst, confidence := tp.snd, previousApproaches := tried } := by
  unfold suggestAlternativeInfoGathering
  rw [h]

theorem suggestInfoGathering_exhausted (tried : List String)
    (h : toolPriorities.find? (fun q => ¬ tried.contains q.fst) = none) :
    suggestAlternativeInfoGathering tried =
      if ¬ tried.contains "DIRECT_SYNTHESIS" then
        { approach := "DIRECT_SYNTHESIS", confidence := 0.7
          previousApproaches := tried }
      else
        { approach := "ASK_CLARIFICATION", confidence := 0.5
          previousApproaches := tried } := by
  unfold suggestAlternativeInfoGathering
  rw [h]

theorem c8_info_gathering_priority_walk :
    (∀ (s : SMState) (id : String) (ctx : String) (t : TaskRec),
      mapGet s.tasks id = some (TaskVal.obj t) →
      t.type = "INFORMATION_GATHERING" →
      failHistory s id ≠ [] →
      (failHistory s id).length < 3 →
      (∀ fr ∈ failHistory s id,
        strIncludes fr.error "Invalid URL" = false ∧
        strIncludes fr.error "undefined" = false ∧
        strIncludes fr.error "Missing required parameter" = false ∧
        strIncludes fr.error "parameter" = false) →
      ∃ tp,
        toolPriorities.find?
          (fun q => ¬ ((failHistory s id).map (fun a => a.approach)).contains q.fst) =
            some tp ∧
        suggestAlternativeApproach s id ctx =
          some { approach := tp.fst, confidence := tp.snd,
                 previousApproaches :=
                   (failHistory s id).map (fun a => a.approach) }) ∧
    (∀ tried : List String, "WEB_SEARCH" ∈ tried → "READ_URL" ∈ tried →
      "MEMORY_CHECK" ∈ tried → "REASONING_TOOL" ∈ tried →
      (tried.contains "DIRECT_SYNTHESIS" = false →
        suggestAlternativeInfoGathering tried =
          { approach := "DIRECT_SYNTHESIS", confidence := 0.7,
            previousApproaches := tried }) ∧
      (tried.contains "DIRECT_SYNTHESIS" = true →
        suggestAlternativeInfoGathering tried =
          { approach := "ASK_CLARIFICATION", confidence := 0.5,
            previousApproaches := tried })) := by
  constructor
  · intro s id ctx t htv hty hne hlt herr
    have hne0 : ¬ (failHistory s id).length = 0 := by
      simpa [List.length_eq_zero] using hne
    have hlt3 : ¬ (failHistory s id).length ≥ 3 := by omega
    have hany1 : ((failHistory s id).map (fun a => a.error)).any
        (fun e => strIncludes e "Invalid URL" || strIncludes e "undefined") = false := by
      rw [List.any_eq_false]
      intro e he
      obtain ⟨fr, hfr, rfl⟩ := List.mem_map.mp he
      simp [(herr fr hfr).1, (herr fr hfr).2.1]
    have hany2 : ((failHistory s id).map (fun a => a.error)).any
        (fun e => strIncludes e "Missing required parameter" ||
          strIncludes e "parameter") = false := by
      rw [List.any_eq_false]
      intro e he
      obtain ⟨fr, hfr, rfl⟩ := List.mem_map.mp he
      simp [(herr fr hfr).2.2.1, (herr fr hfr).2.2.2]
    have hfind : ∃ tp, toolPriorities.find?
        (fun q => ¬ ((failHistory s id).map (fun a => a.approach)).contains q.fst) =
          some tp := by
      cases hf : toolPriorities.find?
          (fun q => ¬ ((failHistory s id).map (fun a => a.approach)).contains q.fst) with
      | some tp => exact ⟨tp, rfl⟩
      | none =>
          exfalso
          have hall := List.find?_eq_none.mp hf
          have hmem : ∀ x ∈ toolPriorities,
              x.fst ∈ (failHistory s id).map (fun a => a.approach) := by
            intro x hx
            have := hall x hx
            simpa using this
          have hsub : ({"WEB_SEARCH", "READ_URL", "MEMORY_CHECK", "REASONING_TOOL"} :
              Finset String) ⊆ ((failHistory s id).map (fun a => a.approach)).toFinset := by
            intro x hx
            simp only [Finset.mem_insert, Finset.mem_singleton] at hx
            rcases hx with rfl | rfl | rfl | rfl
            · exact List.mem_toFinset.mpr
                (hmem ("WEB_SEARCH", 0.9) (by simp [toolPriorities]))
            · exact List.mem_toFinset.mpr
                (hmem ("READ_URL", 0.8) (by simp [toolPriorities]))
            · exact List.mem_toFinset.mpr
                (hmem ("MEMORY_CHECK", 0.7) (by simp [toolPriorities]))
            · exact List.mem_toFinset.mpr
                (hmem ("REASONING_TOOL", 0.6) (by simp [toolPriorities]))
          have hcard : (4 : Nat) ≤
              ((failHistory s id).map (fun a => a.approach)).toFinset.card := by
            have h4 : ({"WEB_SEARCH", "READ_URL", "MEMORY_CHECK", "REASONING_TOOL"} :
                Finset String).card = 4 := by decide
            calc (4 : Nat) = _ := h4.symm
              _ ≤ _ := Finset.card_le_card hsub
          have hle : ((failHistory s id).map (fun a => a.approach)).toFinset.card ≤
              ((failHistory s id).map (fun a => a.approach)).length :=
            List.toFinset_card_le _
          simp only [List.length_map] at hle
          omega
    obtain ⟨tp, htp⟩ := hfind
    have hinfo := suggestInfoGathering_found
      ((failHistory s id).map (fun a => a.approach)) tp htp
    refine ⟨tp, htp, ?_⟩
    unfold suggestAlternativeApproach
    rw [htv]
    simp [hne0, hlt3, hany1, hany2, typeOfVal, hty, hinfo]
  · intro tried h1 h2 h3 h4
    have hfindnone : toolPriorities.find? (fun q => ¬ tried.contains q.fst) = none := by
      rw [List.find?_eq_none]
      intro x hx
      simp only [toolPriorities, List.mem_cons] at hx
      rcases hx with rfl | rfl | rfl | rfl | hx
      · simpa using h1
      · simpa using h2
      · simpa using h3
      · simpa using h4
      · simp at hx
    have hx := suggestInfoGathering_exhausted tried hfindnone
    constructor
    · intro hd
      rw [hx, if_pos (by simpa using hd)]
    · intro hd
      rw [hx, if_neg (by simpa using hd)]

/-- A manager whose `INFORMATION_GATHERING` task `g` has failed once trying
`WEB_SEARCH`, with a generic error. -/
def c8s : SMState :=
  recordFailure (initializePlan emptySM [{ id := some "g", type := "INFORMATION_GATHERING" }])
    "g" "WEB_SEARCH" "boom"

/-- Witness for `c8_info_gathering_priority_walk`: after one `WEB_SEARCH`
failure with no recognised signature the Advisor proposes `READ_URL` (the
next untried entry of the priority list), and on a fully-exhausted tried set
the helper proposes `DIRECT_SYNTHESIS`. -/
theorem c8_info_gathering_witness :
    (∃ tp, toolPriorities.find?
        (fun q => ¬ ((failHistory c8s "g").map (fun a => a.approach)).contains q.fst) =
          some tp ∧
      suggestAlternativeApproach c8s "g" "" =
        some { approach := tp.fst, confidence := tp.snd,
               previousApproaches := (failHistory c8s "g").map (fun a => a.approach) }) ∧
    suggestAlternativeInfoGathering
        ["WEB_SEARCH", "READ_URL", "MEMORY_CHECK", "REASONING_TOOL"] =
      { approach := "DIRECT_SYNTHESIS", confidence := 0.7,
        previousApproaches :=
          ["WEB_SEARCH", "READ_URL", "MEMORY_CHECK", "REASONING_TOOL"] } := by
  constructor
  · exact c8_info_gathering_priority_walk.1 c8s "g" ""
      { mkTaskRec { id := some "g", type := "INFORMATION_GATHERING" } 0 with
        state := TState.failed, endTime := some 1, lastUpdated := some 1 }
      (by decide) (by decide) (by decide) (by decide) (by decide)
  · exact (c8_info_gathering_priority_walk.2
      ["WEB_SEARCH", "READ_URL", "MEMORY_CHECK", "REASONING_TOOL"]
      (by decide) (by decide) (by decide) (by decide)).1 (by decide)

/- ----------------------------------------------------------------- -/
/- C10                                                                -/
/- ----------------------------------------------------------------- -/

theorem find?_first_named (name : String) (cp : Checkpoint)
    (post : List Checkpoint) (hcp : cp.name = name) :
    ∀ pre : List Checkpoint, (∀ c ∈ pre, c.name ≠ name) →
      (pre ++ cp :: post).find? (fun c => c.name = name) = some cp := by
  intro pre
  induction pre with
  | nil =>
      intro _
      simp [List.find?_cons_of_pos, hcp]
  | cons a t ih =>
      intro h
      have ha : ¬ a.name = name := h a (by simp)
      have ht : ∀ c ∈ t, c.name ≠ name := fun c hc => h c (by simp [hc])
      simpa [List.find?_cons_of_neg, ha] using ih ht

/-- C10: the claim holds.  `restoreCheckpoint` on a name with no matching
checkpoint returns `false` and leaves the manager state entirely unchanged;
on a buffer holding several checkpoints with the requested name it restores
the snapshots of the *earliest-created* one bearing that name (JS
`Array.prototype.find` scans the buffer front-to-back, and the buffer is in
creation order). -/
theorem c10_restore_missing_and_duplicate_names :
    (∀ (s : SMState) (name : String),
      (∀ cp ∈ s.checkpoints, cp.name ≠ name) →
      restoreCheckpoint s name = (s, false)) ∧
    (∀ (s : SMState) (name : String) (pre : List Checkpoint) (cp : Checkpoint)
        (post : List Checkpoint),
      s.checkpoints = pre ++ cp :: post →
      (∀ c ∈ pre, c.name ≠ name) → cp.name = name →
      restoreCheckpoint s name =
        ({ s with tasks := cp.taskStates, results := cp.resultsSnapshot,
                  approaches := cp.approachesSnapshot }, true)) := by
  constructor
  · intro s name h
    unfold restoreCheckpoint
    rw [List.find?_eq_none.mpr (by intro c hc; simpa using h c hc)]
  · intro s name pre cp post hs hpre hcp
    unfold restoreCheckpoint
    rw [hs, find?_first_named name cp post hcp pre hpre]

/-- A manager with two checkpoints named `cp`: one captured on the empty
state and one captured after a result for `x` was recorded. -/
def c10s : SMState :=
  createCheckpoint
    (recordSuccess (createCheckpoint emptySM "cp") "x" { success := true })
    "cp"

/-- Witness for `c10_restore_missing_and_duplicate_names`: restoring a
missing name fails and changes nothing, and restoring `cp` brings back the
*earliest* `cp` snapshot (the empty results map), not the later one. -/
theorem c10_restore_witness :
    restoreCheckpoint c10s "nope" = (c10s, false) ∧
    (restoreCheckpoint c10s "cp").fst.results = [] ∧
    (restoreCheckpoint c10s "cp").snd = true := by
  have h1 := c10_restore_missing_and_duplicate_names.1 c10s "nope" (by decide)
  have h2 := c10_restore_missing_and_duplicate_names.2 c10s "cp" []
    (c10s.checkpoints.getD 0 (mkCheckpoint emptySM "junk"))
    (c10s.checkpoints.drop 1) (by decide) (by decide) (by decide)
  refine ⟨h1, ?_, ?_⟩
  · rw [h2]
    decide
  · rw [h2]
